import Mathlib

/-!
Shallow embedding of the OAuth2 authorization-code login flow of
`src/login.ts` (vscode-azure-account): nonce/state handling, the loopback
HTTP server routes `/signin` and `/callback`, the authorization-URL
builders of the two flow variants, server startup and termination, and the
port-recovery logic of the orchestrator.

Strings are modelled by Lean `String`; all strings handled by the relevant
code paths (base64 nonces, digits, URLs, percent-encodings) are ASCII, and
the percent-decoder below decodes byte-per-char (it does not recombine
multi-byte UTF-8 sequences, which never arise in those paths).
-/

deriving instance DecidableEq for Except

namespace Login

/-- `s.replace(/ /g, '+')` from the nonce comparisons in `login.ts`. -/
def spaceToPlus (s : String) : String :=
  String.mk (s.toList.map fun c => if c = ' ' then '+' else c)

/-- The `+` to space remapping Node applies to query values before
percent-decoding them (`querystring.parse`). -/
def plusToSpace (s : String) : String :=
  String.mk (s.toList.map fun c => if c = '+' then ' ' else c)

/-- JavaScript `a || b` on strings: the empty string is falsy. -/
def jsOr (a b : String) : String := if a = "" then b else a

/-- Value of a hexadecimal digit character. -/
def hexVal (c : Char) : Option Nat :=
  if 48 ≤ c.toNat ∧ c.toNat ≤ 57 then some (c.toNat - 48)
  else if 65 ≤ c.toNat ∧ c.toNat ≤ 70 then some (c.toNat - 55)
  else if 97 ≤ c.toNat ∧ c.toNat ≤ 102 then some (c.toNat - 87)
  else none

/-- Upper-case hexadecimal digit for a value below 16 (as produced by
`encodeURIComponent`). -/
def hexDigitU (n : Nat) : Char :=
  if n < 10 then Char.ofNat (48 + n) else Char.ofNat (55 + n)

/-- Lenient percent-decoding of a character list: a `%` followed by two hex
digits becomes the denoted byte, anything else is copied verbatim (the
behaviour of the lenient decoder used by `querystring.parse`; a malformed
escape is copied without re-examination). -/
def percentDecodeL : List Char → List Char
  | [] => []
  | c :: rest =>
    if c = '%' then
      match rest with
      | a :: b :: rest2 =>
        match hexVal a, hexVal b with
        | some x, some y => Char.ofNat (16 * x + y) :: percentDecodeL rest2
        | some _, none => '%' :: a :: b :: percentDecodeL rest2
        | none, _ => '%' :: a :: b :: percentDecodeL rest2
      | [a] => ['%', a]
      | [] => ['%']
    else c :: percentDecodeL rest

/-- One pass of percent-decoding, the model of `decodeURIComponent`. -/
def percentDecode (s : String) : String := String.mk (percentDecodeL s.toList)

/-- Decoding that `querystring.parse` applies to each key and value:
`+` becomes a space, then one percent-decode pass. -/
def qsDecode (s : String) : String := percentDecode (plusToSpace s)

/-- The characters `encodeURIComponent` leaves unescaped:
`A-Z a-z 0-9 - _ . ! ~ * ' ( )`. -/
def isUnreservedURI (c : Char) : Bool :=
  c.isAlpha || c.isDigit || c = '-' || c = '_' || c = '.' || c = '!' ||
    c = '~' || c = '*' || c.toNat = 39 || c = '(' || c = ')'

/-- UTF-8 bytes of a character (as natural numbers below 256). -/
def charUtf8Bytes (c : Char) : List Nat :=
  let n := c.toNat
  if n < 128 then [n]
  else if n < 2048 then [192 + n / 64, 128 + n % 64]
  else if n < 65536 then [224 + n / 4096, 128 + (n / 64) % 64, 128 + n % 64]
  else [240 + n / 262144, 128 + (n / 4096) % 64, 128 + (n / 64) % 64, 128 + n % 64]

/-- Percent-escape of one byte, upper-case hex. -/
def encByte (b : Nat) : List Char := ['%', hexDigitU (b / 16), hexDigitU (b % 16)]

/-- `encodeURIComponent` on one character. -/
def encChar (c : Char) : List Char :=
  if isUnreservedURI c then [c] else (charUtf8Bytes c).flatMap encByte

/-- Model of JavaScript `encodeURIComponent`. -/
def encodeURIComponent (s : String) : String :=
  String.mk (s.toList.flatMap encChar)

/-- Split a character list at the first occurrence of `sep`; `none` when
`sep` does not occur. -/
def splitFirst (sep : Char) : List Char → Option (List Char × List Char)
  | [] => none
  | c :: rest =>
    if c = sep then some ([], rest)
    else match splitFirst sep rest with
      | some (l, r) => some (c :: l, r)
      | none => none

/-- Split a character list at every occurrence of `sep`
(the semantics of JavaScript `String.prototype.split` with a
one-character separator). -/
def splitAll (sep : Char) : List Char → List (List Char)
  | [] => [[]]
  | c :: rest =>
    if c = sep then [] :: splitAll sep rest
    else match splitAll sep rest with
      | [] => [[c]]
      | g :: gs => (c :: g) :: gs

/-- JavaScript `s.split(sep)` for a one-character separator. -/
def jsSplit (sep : Char) (s : String) : List String :=
  (splitAll sep s.toList).map String.mk

/-- One `key=value` segment of a query string, split at the first `=`
(a segment without `=` yields an empty value), both sides decoded as
`querystring.parse` does. -/
def parsePartQS (part : List Char) : String × String :=
  match splitFirst '=' part with
  | some (k, v) => (qsDecode (String.mk k), qsDecode (String.mk v))
  | none => (qsDecode (String.mk part), "")

/-- `querystring.parse` (as invoked by `url.parse(req.url, true)`): split on
`&` skipping empty segments, split each segment at its first `=`, decode
keys and values. The result is kept as an association list in order of
occurrence. -/
def parseQS (s : String) : List (String × String) :=
  ((splitAll '&' s.toList).filter (fun part => part ≠ [])).map parsePartQS

/-- A query field as JavaScript sees it: a plain string for a key occurring
once, an array of strings for a repeated key. -/
inductive QueryVal
  | str (s : String)
  | arr (l : List String)
deriving DecidableEq, Repr

/-- `query[key]` on the object built by `querystring.parse`: absent key is
`undefined` (`none`), one occurrence is the string, several occurrences the
array of values. -/
def queryLookup (q : List (String × String)) (key : String) : Option QueryVal :=
  match (q.filter (fun p => p.1 = key)).map (fun p => p.2) with
  | [] => none
  | [v] => some (.str v)
  | vs => some (.arr vs)

/-- JavaScript `.toString()` on a query field (arrays join with commas). -/
def qvToString : QueryVal → String
  | .str s => s
  | .arr l => ",".intercalate l

/-- `getQueryProp` from `login.ts`: the value when it is a plain string,
the empty string otherwise (absent key or repeated key). -/
def getQueryProp (q : List (String × String)) (key : String) : String :=
  match queryLookup q key with
  | some (.str v) => v
  | _ => ""

/-- Result of the `callback` function of `login.ts` on the parsed query of a
`/callback` request: the authorization code on success, the error message
thrown otherwise. (`url.parse(req.url, true)` always yields a query object,
so the `reqUrl.query` branch is always taken.) -/
def callbackRun (nonce : String) (q : List (String × String)) : Except String String :=
  let error1 := jsOr (getQueryProp q "error_description") (getQueryProp q "error")
  let code := getQueryProp q "code"
  let st := getQueryProp q "state"
  let receivedNonce := spaceToPlus ((jsSplit ',' st).getD 1 "")
  let error2 := if error1 = "" then
      (if receivedNonce ≠ nonce then "Nonce does not match." else "")
    else error1
  if error2 = "" ∧ code ≠ "" then .ok code else .error (jsOr error2 "No code received.")

/-- `/callback` handling at the wire level: parse the raw query string the
way `url.parse(req.url, true)` does, then run `callback`. -/
def handleCallbackWire (nonce rawQuery : String) : Except String String :=
  callbackRun nonce (parseQS rawQuery)

/-- Value the redirect future of `createServer` is resolved with: the
request/response pair, or the error message with the response attached.
Requests and responses are identified by opaque numeric handles. -/
inductive RedirectOutcome
  | ok (req res : Nat)
  | err (msg : String) (res : Nat)
deriving DecidableEq, Repr

/-- Value the code future of `createServer` is resolved with: the
authorization code or the error message, the response attached either way. -/
inductive CodeOutcome
  | code (c : String) (res : Nat)
  | err (msg : String) (res : Nat)
deriving DecidableEq, Repr

/-- A JavaScript promise settled at most once. -/
inductive FutureState (α : Type)
  | pending
  | settled (val : α)
deriving DecidableEq, Repr

/-- Calling `resolve` on a deferred promise: settles it when pending, has no
effect when already settled (JavaScript promise semantics the deferreds of
`createServer` rely on). -/
def FutureState.resolve {α : Type} : FutureState α → α → FutureState α
  | .pending, a => .settled a
  | .settled b, _ => .settled b

/-- The two futures of one `createServer` session. -/
structure SessionState where
  redirectF : FutureState RedirectOutcome
  codeF : FutureState CodeOutcome
deriving DecidableEq, Repr

/-- What the request handler did, besides updating the futures. -/
inductive HandlerAction
  | resolvedRedirect
  | servedPage (name : String)
  | resolvedCode
  | sent404
deriving DecidableEq, Repr

/-- The request handler of `createServer`: dispatch on `reqUrl.pathname`.
`none` models the handler throwing: on `/signin` without a `nonce`
parameter, `reqUrl.query.nonce` is `undefined` and `.toString()` on it
raises a `TypeError`, so neither future is resolved. -/
def handleRequest (nonce : String) (s : SessionState) (pathname : String)
    (q : List (String × String)) (req res : Nat) :
    Option (SessionState × HandlerAction) :=
  if pathname = "/signin" then
    match queryLookup q "nonce" with
    | none => none
    | some v =>
      let receivedNonce := spaceToPlus (qvToString v)
      let r := if receivedNonce = nonce then RedirectOutcome.ok req res
        else RedirectOutcome.err "Nonce does not match." res
      some ({ s with redirectF := s.redirectF.resolve r }, .resolvedRedirect)
  else if pathname = "/" then some (s, .servedPage "index.html")
  else if pathname = "/main.css" then some (s, .servedPage "main.css")
  else if pathname = "/callback" then
    let r := match callbackRun nonce q with
      | .ok c => CodeOutcome.code c res
      | .error m => CodeOutcome.err m res
    some ({ s with codeF := s.codeF.resolve r }, .resolvedCode)
  else some (s, .sent404)

/-- The state comparison of `exchangeCodeForToken` (no-local-server flow):
the received raw `state` value is accepted when it equals the session state
verbatim, or after one extra percent-decode (`decodeURIComponent`), the
commented workaround for double encoding. -/
def exchangeStateCheck (sessionState received : String) : Bool :=
  received = sessionState || percentDecode received = sessionState

/-- `redirectUrlAAD` from `login.ts`. -/
def redirectUrlAAD : String := "https://vscode-redirect.azurewebsites.net/"

/-- `portADFS` from `login.ts`. -/
def portADFS : Nat := 19472

/-- `redirectUrlADFS` from `login.ts`. -/
def redirectUrlADFS : String := "http://127.0.0.1:" ++ toString portADFS ++ "/callback"

/-- Query of the authorization URL built by `loginWithoutLocalServer`
(line 144 of `login.ts`): the `redirect_uri` value is the raw
`redirectUrlAAD`, and `resource` is raw as well; only `client_id` is
percent-encoded. -/
def noLocalServerAuthQuery (clientId state resource : String) : String :=
  "response_type=code&client_id=" ++ encodeURIComponent clientId ++
    "&redirect_uri=" ++ redirectUrlAAD ++ "&state=" ++ state ++
    "&resource=" ++ resource ++ "&prompt=select_account"

/-- Query of the authorization URL built by `login` (line 197 of
`login.ts`): here `redirect_uri` and `resource` are percent-encoded. -/
def localServerAuthQuery (clientId redirectUrl state resource : String) : String :=
  "response_type=code&client_id=" ++ encodeURIComponent clientId ++
    "&redirect_uri=" ++ encodeURIComponent redirectUrl ++ "&state=" ++ state ++
    "&resource=" ++ encodeURIComponent resource ++ "&prompt=select_account"

/-- The full sign-in URL of the local-server flow. -/
def localServerSignInUrl (adEndpoint : String) (adfs : Bool)
    (tenantId clientId state resource : String) : String :=
  adEndpoint ++ (if adfs then "" else tenantId ++ "/") ++ "oauth2/authorize?" ++
    localServerAuthQuery clientId (if adfs then redirectUrlADFS else redirectUrlAAD)
      state resource

/-- Whether one `&`-separated segment of a built URL carries the wanted
key: the part before the first `=` must be the key; the raw remainder is
the value, with no decoding. -/
def rawParamPick (key : String) (part : List Char) : Option String :=
  match splitFirst '=' part with
  | some (k, v) => if k = key.toList then some (String.mk v) else none
  | none => if part = key.toList then some "" else none

/-- The value a query parameter carries in a built URL, without any
decoding: split the query on `&`, take the first segment whose part before
the first `=` is the key. -/
def rawParam (query key : String) : Option String :=
  ((splitAll '&' query.toList).filterMap (rawParamPick key)).head?

/-- The timeout of `startServer` waiting for a port, in milliseconds
(`setTimeout(..., 5000)`). -/
def portTimeoutMs : Nat := 5000

/-- The timeout of `createServer` waiting for `/callback`, in milliseconds
(`5 * 60 * 1000`). -/
def codeTimeoutMs : Nat := 5 * 60 * 1000

/-- The delay before `login` closes the server after the flow completes,
in milliseconds. -/
def serverCloseDelayMs : Nat := 5000

/-- Events the `startServer` promise reacts to, in the order they are
delivered: the `listening` event (carrying `server.address()`, a port when
it is a socket address and `none` when it is a string or null), the `error`
event, the `close` event, and the firing of the 5-second timer. -/
inductive SEvent
  | listening (port : Option Nat)
  | errorEv (msg : String)
  | closeEv
  | timeoutEv
deriving DecidableEq, Repr

/-- How the `startServer` promise settles. -/
inductive StartOutcome
  | ok (port : Nat)
  | errTimeout
  | errBind (msg : String)
  | errClosed
deriving DecidableEq, Repr

/-- A promise settles with its first resolution or rejection; a `listening`
event without a usable socket address settles nothing (the `if` in
`startServer` has no else branch). `none` means the promise is still
pending after the whole event list. -/
def firstSettle : List SEvent → Option StartOutcome
  | [] => none
  | .listening (some p) :: _ => some (.ok p)
  | .listening none :: rest => firstSettle rest
  | .errorEv m :: _ => some (.errBind m)
  | .closeEv :: _ => some .errClosed
  | .timeoutEv :: _ => some (.errTimeout)

/-- An event that does not settle the `startServer` promise. -/
def nonSettling : SEvent → Bool
  | .listening none => true
  | _ => false

/-- Messages of the rejections produced by `startServer`: the timeout
rejects with `Timeout waiting for port`, the `close` event with `Closed`,
the `error` event with the bind error itself. -/
def startErrMessage : StartOutcome → Option String
  | .ok _ => none
  | .errTimeout => some "Timeout waiting for port"
  | .errBind m => some m
  | .errClosed => some "Closed"

/-- Outcomes of the awaited steps of the `login` orchestrator. -/
structure FlowEnv where
  start : StartOutcome
  redirect : RedirectOutcome
  codeOutcome : CodeOutcome
  exchange : Except String String
deriving DecidableEq, Repr

/-- The stages of the `try` block of `login` that run after the port is
obtained. -/
inductive FlowStage
  | openUri
  | awaitRedirect
  | redirectToProvider
  | awaitCode
  | exchangeStage
deriving DecidableEq, Repr

/-- The `try` block of `login` as a function of the outcomes of its awaited
steps: which stages run, and the result or the error propagated. A failure
of `startServer` throws at the first `await`, so no stage runs. -/
def loginFlow (env : FlowEnv) : List FlowStage × Except String String :=
  match startErrMessage env.start with
  | some m => ([], .error m)
  | none =>
    match env.redirect with
    | .err m _ => ([.openUri, .awaitRedirect], .error m)
    | .ok _ _ =>
      match env.codeOutcome with
      | .err m _ =>
        ([.openUri, .awaitRedirect, .redirectToProvider, .awaitCode], .error m)
      | .code _ _ =>
        match env.exchange with
        | .error m =>
          ([.openUri, .awaitRedirect, .redirectToProvider, .awaitCode,
            .exchangeStage], .error m)
        | .ok tok =>
          ([.openUri, .awaitRedirect, .redirectToProvider, .awaitCode,
            .exchangeStage], .ok tok)

/-- State of `createTerminateServer`: the registry of open sockets keyed by
the incrementing id, whether `server.close` has been called, which sockets
were destroyed, and whether the returned promise has settled. -/
structure TermState where
  sockets : List Nat
  nextId : Nat
  destroyed : List Nat
  closeRequested : Bool
  completed : Bool
deriving DecidableEq, Repr

/-- Initial state: no sockets tracked, nothing requested. -/
def termInit : TermState :=
  { sockets := [], nextId := 0, destroyed := [], closeRequested := false,
    completed := false }

/-- Events acting on `createTerminateServer`: a new connection, a socket
close event, the invocation of the returned terminate function, and the
firing of the server close callback. -/
inductive TermEvent
  | connect
  | socketClose (id : Nat)
  | terminate
  | serverClosed
deriving DecidableEq, Repr

/-- One step of `createTerminateServer`: `connection` registers the socket
under `socketCount++`; a socket close event deletes it from the registry;
the terminate function calls `server.close(resolve)` and destroys every
tracked socket; the server close callback resolves the returned promise
(it can only fire once `close` was requested). -/
def stepTerm (s : TermState) : TermEvent → TermState
  | .connect =>
    { s with sockets := s.sockets ++ [s.nextId], nextId := s.nextId + 1 }
  | .socketClose id => { s with sockets := s.sockets.erase id }
  | .terminate =>
    { s with closeRequested := true, destroyed := s.destroyed ++ s.sockets }
  | .serverClosed => if s.closeRequested then { s with completed := true } else s

/-- Run a trace of events from a state. -/
def runTerm (s : TermState) (trace : List TermEvent) : TermState :=
  trace.foldl stepTerm s

/-- The regular expression `^[^:]+:(\d+)$` applied to the `Host` header in
`login`: a match needs a nonempty prefix without `:`, one `:`, and a
nonempty suffix of digits, which is the captured group. -/
def hostPortCapture (h : String) : Option String :=
  match splitFirst ':' h.toList with
  | some (pre, rest) =>
    if pre ≠ [] ∧ rest ≠ [] ∧ rest.all Char.isDigit then some (String.mk rest)
    else none
  | none => none

/-- `parseInt(s, 10)` on a nonempty all-digit string. -/
def jsParseIntDigits (s : String) : Nat :=
  s.toList.foldl (fun acc c => acc * 10 + (c.toNat - 48)) 0

/-- Port recovery of `login` after the redirect: `req.headers.host || ''`,
the regular expression above, `parseInt` of the captured digits when the
header matched, the originally bound port otherwise. -/
def recoverPort (host : Option String) (boundPort : Nat) : Nat :=
  match hostPortCapture (host.getD "") with
  | some d => jsParseIntDigits d
  | none => boundPort

/-- The state `login` rebuilds for the 302 redirect to the identity
provider: the recovered port, a comma, and the percent-encoded nonce. -/
def rebuildStateLocal (nonce : String) (updatedPort : Nat) : String :=
  toString updatedPort ++ "," ++ encodeURIComponent nonce

/-! Helper lemmas. -/

theorem queryLookup_eq_none (q : List (String × String)) (key : String)
    (h : ∀ p ∈ q, p.1 ≠ key) : queryLookup q key = none := by
  unfold queryLookup
  have hf : q.filter (fun p => p.1 = key) = [] := by
    rw [List.filter_eq_nil_iff]
    intro p hp
    simpa using h p hp
  rw [hf]
  rfl

theorem splitFirst_not_mem (sep : Char) (l : List Char) (h : sep ∉ l) :
    splitFirst sep l = none := by
  induction l with
  | nil => rfl
  | cons c rest ih =>
    have hc : c ≠ sep := fun he => h (he ▸ List.mem_cons_self c rest)
    have hr : sep ∉ rest := fun hm => h (List.mem_cons_of_mem c hm)
    simp [splitFirst, hc, ih hr]

theorem splitFirst_append (sep : Char) (l1 l2 : List Char) (h : sep ∉ l1) :
    splitFirst sep (l1 ++ sep :: l2) = some (l1, l2) := by
  induction l1 with
  | nil => simp [splitFirst]
  | cons c rest ih =>
    have hc : c ≠ sep := fun he => h (he ▸ List.mem_cons_self c rest)
    have hr : sep ∉ rest := fun hm => h (List.mem_cons_of_mem c hm)
    simp [splitFirst, hc, ih hr]

theorem splitAll_not_mem (sep : Char) (l : List Char) (h : sep ∉ l) :
    splitAll sep l = [l] := by
  induction l with
  | nil => rfl
  | cons c rest ih =>
    have hc : c ≠ sep := fun he => h (he ▸ List.mem_cons_self c rest)
    have hr : sep ∉ rest := fun hm => h (List.mem_cons_of_mem c hm)
    simp [splitAll, hc, ih hr]

theorem splitAll_append_cons (sep : Char) (l1 l2 : List Char) (h : sep ∉ l1) :
    splitAll sep (l1 ++ sep :: l2) = l1 :: splitAll sep l2 := by
  induction l1 with
  | nil => simp [splitAll]
  | cons c rest ih =>
    have hc : c ≠ sep := fun he => h (he ▸ List.mem_cons_self c rest)
    have hr : sep ∉ rest := fun hm => h (List.mem_cons_of_mem c hm)
    simp [splitAll, hc, ih hr]

theorem percentDecodeL_cons_ne (c : Char) (l : List Char) (h : c ≠ '%') :
    percentDecodeL (c :: l) = c :: percentDecodeL l := by
  conv_lhs => rw [percentDecodeL.eq_def]
  simp [h]

theorem percentDecodeL_append (l1 l2 : List Char) (h : '%' ∉ l1) :
    percentDecodeL (l1 ++ l2) = l1 ++ percentDecodeL l2 := by
  induction l1 with
  | nil => rfl
  | cons c rest ih =>
    have hc : c ≠ '%' := fun he => h (he ▸ List.mem_cons_self c rest)
    have hr : '%' ∉ rest := fun hm => h (List.mem_cons_of_mem c hm)
    simp [percentDecodeL_cons_ne c _ hc, ih hr]

theorem hexVal_hexDigitU (n : Nat) (h : n < 16) : hexVal (hexDigitU n) = some n := by
  have key : ∀ m : Fin 16, hexVal (hexDigitU m.val) = some m.val := by decide
  exact key ⟨n, h⟩

theorem encChar_ascii (c : Char) (h : c.toNat < 128) :
    encChar c = if isUnreservedURI c then [c]
      else ['%', hexDigitU (c.toNat / 16), hexDigitU (c.toNat % 16)] := by
  simp [encChar, charUtf8Bytes, encByte, h]

theorem percentDecodeL_encChar (c : Char) (rest : List Char) (h : c.toNat < 128) :
    percentDecodeL (encChar c ++ rest) = c :: percentDecodeL rest := by
  rw [encChar_ascii c h]
  by_cases hu : isUnreservedURI c
  · have hc : c ≠ '%' := by
      intro he
      rw [he] at hu
      exact absurd hu (by decide)
    simp [hu, percentDecodeL_cons_ne c rest hc]
  · have h1 : hexVal (hexDigitU (c.toNat / 16)) = some (c.toNat / 16) :=
      hexVal_hexDigitU _ (Nat.div_lt_of_lt_mul (by omega))
    have h2 : hexVal (hexDigitU (c.toNat % 16)) = some (c.toNat % 16) :=
      hexVal_hexDigitU _ (Nat.mod_lt _ (by norm_num))
    simp [hu, percentDecodeL, h1, h2, Nat.div_add_mod, Char.ofNat_toNat]

theorem percentDecodeL_flatMap_encChar (l : List Char)
    (h : ∀ c ∈ l, c.toNat < 128) :
    percentDecodeL (l.flatMap encChar) = l := by
  induction l with
  | nil => rfl
  | cons c rest ih =>
    rw [List.flatMap_cons,
      percentDecodeL_encChar c _ (h c (List.mem_cons_self c rest)),
      ih (fun d hd => h d (List.mem_cons_of_mem c hd))]

theorem notMem_encChar (bad : Char) (hb1 : isUnreservedURI bad = false)
    (hb2 : bad ≠ '%') (hb3 : ∀ n : Fin 16, hexDigitU n.val ≠ bad)
    (c : Char) (hc : c.toNat < 128) : bad ∉ encChar c := by
  intro hmem
  rw [encChar_ascii c hc] at hmem
  by_cases hu : isUnreservedURI c
  · rw [if_pos hu] at hmem
    simp at hmem
    rw [← hmem, hb1] at hu
    exact Bool.noConfusion hu
  · rw [if_neg hu] at hmem
    simp at hmem
    rcases hmem with h | h | h
    · exact hb2 h
    · exact hb3 ⟨c.toNat / 16, Nat.div_lt_of_lt_mul (by omega)⟩ h.symm
    · exact hb3 ⟨c.toNat % 16, Nat.mod_lt _ (by norm_num)⟩ h.symm

theorem notMem_flatMap_encChar (bad : Char) (hb1 : isUnreservedURI bad = false)
    (hb2 : bad ≠ '%') (hb3 : ∀ n : Fin 16, hexDigitU n.val ≠ bad)
    (l : List Char) (hl : ∀ c ∈ l, c.toNat < 128) :
    bad ∉ l.flatMap encChar := by
  intro hmem
  rcases List.mem_flatMap.mp hmem with ⟨c, hc, hm⟩
  exact notMem_encChar bad hb1 hb2 hb3 c (hl c hc) hm

theorem toList_append (a b : String) :
    (a ++ b).toList = a.toList ++ b.toList := String.data_append a b

theorem toList_mk (l : List Char) : (String.mk l).toList = l := rfl

theorem mk_toList (s : String) : String.mk s.toList = s := rfl

theorem map_eq_self_of (f : Char → Char) (l : List Char)
    (h : ∀ c ∈ l, f c = c) : l.map f = l := by
  induction l with
  | nil => rfl
  | cons c rest ih =>
    rw [List.map_cons, h c (List.mem_cons_self c rest),
      ih (fun d hd => h d (List.mem_cons_of_mem c hd))]


theorem jsOr_of_ne (a b : String) (h : a ≠ "") : jsOr a b = a := by
  unfold jsOr
  rw [if_neg h]

/-- A fresh session: both futures pending. -/
def pendingSession : SessionState :=
  { redirectF := FutureState.pending, codeF := FutureState.pending }

/-- A session whose redirect future has already settled successfully. -/
def settledRedirectSession : SessionState :=
  { redirectF := FutureState.settled (RedirectOutcome.ok 1 2),
    codeF := FutureState.pending }

/-! Claim theorems. -/

/-- C3: for every session nonce and every `/signin` request carrying a
`nonce` query value, the handler settles the pending redirect future in
exactly one way: with the request/response pair when the received value,
every space replaced by `+`, equals the session nonce, and with the
nonce-mismatch error (response still attached) for any other value — the
future ends settled (never neither) with a single value (never both). -/
theorem signin_resolves_exactly_once (nonce : String)
    (q : List (String × String)) (v : QueryVal) (s : SessionState)
    (req res : Nat) (hv : queryLookup q "nonce" = some v)
    (hp : s.redirectF = FutureState.pending) :
    handleRequest nonce s "/signin" q req res =
      some ({ s with redirectF := FutureState.settled (if
          spaceToPlus (qvToString v) = nonce then RedirectOutcome.ok req res
          else RedirectOutcome.err "Nonce does not match." res) },
        HandlerAction.resolvedRedirect) := by
  simp only [handleRequest, String.reduceEq, reduceIte, hv]
  rw [hp]
  rfl

/-- Witness for C3 at the concrete nonce `abc=` of the spec scenario. -/
theorem signin_resolves_exactly_once_witness :
    queryLookup [("nonce", "abc=")] "nonce" = some (QueryVal.str "abc=")
    ∧ handleRequest "abc=" pendingSession "/signin" [("nonce", "abc=")] 1 2 =
      some ({ pendingSession with redirectF := FutureState.settled (if
          spaceToPlus (qvToString (QueryVal.str "abc=")) = "abc=" then
          RedirectOutcome.ok 1 2
          else RedirectOutcome.err "Nonce does not match." 2) },
        HandlerAction.resolvedRedirect) :=
  ⟨by decide, signin_resolves_exactly_once "abc=" [("nonce", "abc=")]
    (QueryVal.str "abc=") pendingSession 1 2 (by decide) rfl⟩

/-- C4: a `/callback` request whose query carries a non-empty
`error_description` or `error` value settles the pending code future as a
failure with that message — `error_description` preferred, `error` as the
fallback (the `||` in the source) — with no assumption on whether a `code`
parameter is present. -/
theorem callback_error_params_fail (nonce : String)
    (q : List (String × String)) (s : SessionState) (req res : Nat)
    (hp : s.codeF = FutureState.pending)
    (he : jsOr (getQueryProp q "error_description") (getQueryProp q "error") ≠ "") :
    handleRequest nonce s "/callback" q req res =
      some ({ s with codeF := FutureState.settled (CodeOutcome.err
          (jsOr (getQueryProp q "error_description") (getQueryProp q "error"))
          res) },
        HandlerAction.resolvedCode) := by
  simp only [handleRequest, String.reduceEq, reduceIte, callbackRun]
  rw [if_neg he]
  rw [if_neg (fun hand => he hand.1)]
  rw [jsOr_of_ne _ _ he, hp]
  rfl

/-- Witness for C4 on spec scenario B. -/
theorem callback_error_params_fail_witness :
    jsOr
      (getQueryProp (parseQS "error=access_denied&error_description=User%20declined&code=Q")
        "error_description")
      (getQueryProp (parseQS "error=access_denied&error_description=User%20declined&code=Q")
        "error") ≠ ""
    ∧ handleRequest "abc=" pendingSession "/callback"
      (parseQS "error=access_denied&error_description=User%20declined&code=Q") 1 2 =
      some ({ pendingSession with codeF := FutureState.settled (CodeOutcome.err
          (jsOr
            (getQueryProp (parseQS "error=access_denied&error_description=User%20declined&code=Q")
              "error_description")
            (getQueryProp (parseQS "error=access_denied&error_description=User%20declined&code=Q")
              "error")) 2) },
        HandlerAction.resolvedCode) :=
  ⟨by decide, callback_error_params_fail "abc="
    (parseQS "error=access_denied&error_description=User%20declined&code=Q")
    pendingSession 1 2 rfl (by decide)⟩

/-- C5: a `/callback` request with no `error`/`error_description` value
whose `state` embeds a nonce (the segment after the first comma, spaces
remapped to `+`) different from the session nonce settles the pending code
future as the nonce-mismatch failure, with no assumption on the presence of
a `code` parameter. -/
theorem callback_nonce_mismatch_fail (nonce : String)
    (q : List (String × String)) (s : SessionState) (req res : Nat)
    (hp : s.codeF = FutureState.pending)
    (hd : getQueryProp q "error_description" = "")
    (he : getQueryProp q "error" = "")
    (hn : spaceToPlus ((jsSplit ',' (getQueryProp q "state")).getD 1 "") ≠ nonce) :
    handleRequest nonce s "/callback" q req res =
      some ({ s with codeF := FutureState.settled (CodeOutcome.err
          "Nonce does not match." res) },
        HandlerAction.resolvedCode) := by
  simp only [handleRequest, String.reduceEq, reduceIte, callbackRun]
  rw [hd, he]
  have h1 : jsOr "" "" = "" := rfl
  rw [h1, if_pos rfl, if_pos hn]
  have h2 : ¬(("Nonce does not match." : String) = "" ∧
      getQueryProp q "code" ≠ "") := fun hand => absurd hand.1 (by decide)
  rw [if_neg h2]
  have h3 : jsOr "Nonce does not match." "No code received."
      = "Nonce does not match." := rfl
  rw [h3, hp]
  rfl

/-- Witness for C5: mismatching state nonce with a `code` present. -/
theorem callback_nonce_mismatch_fail_witness :
    getQueryProp (parseQS "code=XYZ&state=51234,zzz") "error_description" = ""
    ∧ getQueryProp (parseQS "code=XYZ&state=51234,zzz") "error" = ""
    ∧ spaceToPlus ((jsSplit ','
      (getQueryProp (parseQS "code=XYZ&state=51234,zzz") "state")).getD 1 "")
      ≠ "abc="
    ∧ handleRequest "abc=" pendingSession "/callback"
      (parseQS "code=XYZ&state=51234,zzz") 1 2 =
      some ({ pendingSession with codeF := FutureState.settled (CodeOutcome.err
          "Nonce does not match." 2) },
        HandlerAction.resolvedCode) :=
  ⟨by decide, by decide, by decide, callback_nonce_mismatch_fail "abc="
    (parseQS "code=XYZ&state=51234,zzz") pendingSession 1 2 rfl
    (by decide) (by decide) (by decide)⟩

/-- C8: resolving the redirect future (or the code future) again once it is
settled has no observable effect — stated for the promise model itself and
for a second `/signin` (resp. `/callback`) request reaching the handler
after the corresponding future settled: the settled value is unchanged. -/
theorem future_resolution_idempotent :
    (∀ v w : RedirectOutcome,
      (FutureState.settled v).resolve w = FutureState.settled v)
    ∧ (∀ (nonce : String) (s : SessionState) (q : List (String × String))
      (req res : Nat) (v : RedirectOutcome) (s2 : SessionState)
      (a : HandlerAction), s.redirectF = FutureState.settled v →
      handleRequest nonce s "/signin" q req res = some (s2, a) →
      s2.redirectF = FutureState.settled v)
    ∧ (∀ (nonce : String) (s : SessionState) (q : List (String × String))
      (req res : Nat) (v : CodeOutcome) (s2 : SessionState)
      (a : HandlerAction), s.codeF = FutureState.settled v →
      handleRequest nonce s "/callback" q req res = some (s2, a) →
      s2.codeF = FutureState.settled v) := by
  refine ⟨fun v w => rfl, ?_, ?_⟩
  · intro nonce s q req res v s2 a hv h
    simp only [handleRequest, String.reduceEq, reduceIte] at h
    cases hq : queryLookup q "nonce" with
    | none => rw [hq] at h; cases h
    | some w =>
      rw [hq] at h
      simp only [Option.some.injEq, Prod.mk.injEq] at h
      rw [← h.1, hv]
      rfl
  · intro nonce s q req res v s2 a hv h
    simp only [handleRequest, String.reduceEq, reduceIte, Option.some.injEq,
      Prod.mk.injEq] at h
    rw [← h.1, hv]
    rfl

/-- Witness for C8: a second `/signin` leaves the settled redirect future
unchanged. -/
theorem future_resolution_idempotent_witness :
    settledRedirectSession.redirectF
      = FutureState.settled (RedirectOutcome.ok 1 2)
    ∧ handleRequest "abc=" settledRedirectSession "/signin"
      [("nonce", "zzz")] 3 4 =
      some (settledRedirectSession, HandlerAction.resolvedRedirect)
    ∧ settledRedirectSession.redirectF
      = FutureState.settled (RedirectOutcome.ok 1 2) :=
  ⟨rfl, by decide,
    future_resolution_idempotent.2.1 "abc=" settledRedirectSession
      [("nonce", "zzz")] 3 4 (RedirectOutcome.ok 1 2) settledRedirectSession
      HandlerAction.resolvedRedirect rfl (by decide)⟩

/-- C10: a `/signin` request whose query has no `nonce` parameter at all is
not handled totally: `reqUrl.query.nonce` is `undefined`, `.toString()` on
it throws, and neither future is resolved — modelled by the handler
returning `none`. -/
theorem signin_missing_nonce_throws (nonce : String) (s : SessionState)
    (q : List (String × String)) (req res : Nat)
    (hq : ∀ p ∈ q, p.1 ≠ "nonce") :
    handleRequest nonce s "/signin" q req res = none := by
  simp only [handleRequest, String.reduceEq, reduceIte,
    queryLookup_eq_none q "nonce" hq]

/-- Witness for C10: `/signin` with a query carrying only `code`. -/
theorem signin_missing_nonce_throws_witness :
    (∀ p ∈ [("code", "XYZ")], Prod.fst p ≠ "nonce")
    ∧ handleRequest "abc=" pendingSession "/signin" [("code", "XYZ")] 1 2
      = none :=
  ⟨by decide, signin_missing_nonce_throws "abc=" pendingSession
    [("code", "XYZ")] 1 2 (by decide)⟩


theorem firstSettle_append_nonSettling (pre l : List SEvent)
    (h : pre.all nonSettling = true) :
    firstSettle (pre ++ l) = firstSettle l := by
  induction pre with
  | nil => rfl
  | cons e rest ih =>
    simp only [List.all_cons, Bool.and_eq_true] at h
    cases e with
    | listening p =>
      cases p with
      | none => simpa [firstSettle] using ih h.2
      | some v => exact absurd h.1 (by simp [nonSettling])
    | errorEv m => exact absurd h.1 (by simp [nonSettling])
    | closeEv => exact absurd h.1 (by simp [nonSettling])
    | timeoutEv => exact absurd h.1 (by simp [nonSettling])

theorem runTerm_completed_aux (trace : List TermEvent) (s : TermState)
    (h : (runTerm s trace).completed = true) :
    s.completed = true ∨ ∃ t1 t2, trace = t1 ++ TermEvent.serverClosed :: t2
      ∧ (s.closeRequested = true ∨ TermEvent.terminate ∈ t1) := by
  induction trace generalizing s with
  | nil => exact Or.inl h
  | cons e rest ih =>
    have h2 : (runTerm (stepTerm s e) rest).completed = true := h
    rcases ih (stepTerm s e) h2 with hc | ⟨t1, t2, heq, hside⟩
    · cases e with
      | connect => exact Or.inl hc
      | socketClose id => exact Or.inl hc
      | terminate => exact Or.inl hc
      | serverClosed =>
        by_cases hcr : s.closeRequested = true
        · exact Or.inr ⟨[], rest, rfl, Or.inl hcr⟩
        · have hid : stepTerm s TermEvent.serverClosed = s := by
            simp [stepTerm, hcr]
          rw [hid] at hc
          exact Or.inl hc
    · refine Or.inr ⟨e :: t1, t2, by rw [heq, List.cons_append], ?_⟩
      rcases hside with hcr | hmem
      · cases e with
        | connect => exact Or.inl hcr
        | socketClose id => exact Or.inl hcr
        | terminate => exact Or.inr (List.mem_cons_self _ _)
        | serverClosed =>
          have hk : (stepTerm s TermEvent.serverClosed).closeRequested
              = s.closeRequested := by
            simp only [stepTerm]
            split
            · rfl
            · rfl
          rw [hk] at hcr
          exact Or.inl hcr
      · exact Or.inr (List.mem_cons_of_mem _ hmem)

/-- C6: `startServer` fails with the port-bind rejections — the bind
`error` event rejects with that error, and the 5-second timer (the
`portTimeoutMs = 5000` constant) rejects with `Timeout waiting for port`
when no usable `listening` event settled the promise first — and with the
`Closed` rejection when the server closes before a port is obtained; on
any such failure the `login` flow runs no further stage. -/
theorem start_server_failure_modes :
    portTimeoutMs = 5000
    ∧ (∀ pre post : List SEvent, pre.all nonSettling = true →
      firstSettle (pre ++ SEvent.timeoutEv :: post)
        = some StartOutcome.errTimeout)
    ∧ (∀ (pre post : List SEvent) (m : String), pre.all nonSettling = true →
      firstSettle (pre ++ SEvent.errorEv m :: post)
        = some (StartOutcome.errBind m))
    ∧ (∀ pre post : List SEvent, pre.all nonSettling = true →
      firstSettle (pre ++ SEvent.closeEv :: post)
        = some StartOutcome.errClosed)
    ∧ (∀ (env : FlowEnv) (m : String), startErrMessage env.start = some m →
      loginFlow env = ([], Except.error m)) := by
  refine ⟨rfl, ?_, ?_, ?_, ?_⟩
  · intro pre post h
    rw [firstSettle_append_nonSettling pre _ h]
    rfl
  · intro pre post m h
    rw [firstSettle_append_nonSettling pre _ h]
    rfl
  · intro pre post h
    rw [firstSettle_append_nonSettling pre _ h]
    rfl
  · intro env m h
    simp [loginFlow, h]

/-- A flow environment whose server start timed out. -/
def failedStartEnv : FlowEnv :=
  { start := StartOutcome.errTimeout, redirect := RedirectOutcome.ok 1 2,
    codeOutcome := CodeOutcome.code "XYZ" 2, exchange := Except.ok "token" }

/-- Witness for C6: a timeout after an unusable `listening` event, a bind
error, a premature close, and the empty stage list of a failed flow. -/
theorem start_server_failure_modes_witness :
    ([SEvent.listening none].all nonSettling = true)
    ∧ firstSettle ([SEvent.listening none] ++ SEvent.timeoutEv :: [])
      = some StartOutcome.errTimeout
    ∧ firstSettle ([] ++ SEvent.errorEv "listen EADDRINUSE" :: [])
      = some (StartOutcome.errBind "listen EADDRINUSE")
    ∧ firstSettle ([] ++ SEvent.closeEv :: []) = some StartOutcome.errClosed
    ∧ loginFlow failedStartEnv
      = ([], Except.error "Timeout waiting for port") :=
  ⟨by decide,
    start_server_failure_modes.2.1 [SEvent.listening none] [] (by decide),
    start_server_failure_modes.2.2.1 [] [] "listen EADDRINUSE" (by decide),
    start_server_failure_modes.2.2.2.1 [] [] (by decide),
    start_server_failure_modes.2.2.2.2 failedStartEnv
      "Timeout waiting for port" (by decide)⟩

/-- C7: invoking the terminate-predecessor routine marks the server close
as requested and force-destroys every socket tracked at that moment; a
socket close event removes exactly that socket from tracking; and the
completion future settles only after the server close callback fires after
a terminate — any completed run contains `serverClosed` preceded by
`terminate`. -/
theorem terminate_server_contract :
    (∀ s : TermState, (stepTerm s TermEvent.terminate).closeRequested = true
      ∧ ∀ id ∈ s.sockets, id ∈ (stepTerm s TermEvent.terminate).destroyed)
    ∧ (∀ (s : TermState) (id : Nat),
      (stepTerm s (TermEvent.socketClose id)).sockets = s.sockets.erase id)
    ∧ (∀ trace : List TermEvent, (runTerm termInit trace).completed = true →
      ∃ t1 t2, trace = t1 ++ TermEvent.serverClosed :: t2
        ∧ TermEvent.terminate ∈ t1) := by
  refine ⟨?_, fun s id => rfl, ?_⟩
  · intro s
    exact ⟨rfl, fun id hid => List.mem_append_right _ hid⟩
  · intro trace h
    rcases runTerm_completed_aux trace termInit h with hc | ⟨t1, t2, heq, hside⟩
    · exact absurd hc (by decide)
    · rcases hside with hcr | hmem
      · exact absurd hcr (by decide)
      · exact ⟨t1, t2, heq, hmem⟩

/-- Witness for C7, spec scenario C: a server with two open sockets
destroys both on terminate, and a completed run factors through
`serverClosed` after `terminate`. -/
theorem terminate_server_contract_witness :
    (0 ∈ (runTerm termInit [TermEvent.connect, TermEvent.connect]).sockets)
    ∧ (0 ∈ (stepTerm (runTerm termInit [TermEvent.connect, TermEvent.connect])
      TermEvent.terminate).destroyed)
    ∧ (1 ∈ (stepTerm (runTerm termInit [TermEvent.connect, TermEvent.connect])
      TermEvent.terminate).destroyed)
    ∧ ∃ t1 t2, [TermEvent.connect, TermEvent.connect, TermEvent.terminate,
        TermEvent.socketClose 0, TermEvent.socketClose 1,
        TermEvent.serverClosed]
      = t1 ++ TermEvent.serverClosed :: t2 ∧ TermEvent.terminate ∈ t1 :=
  ⟨by decide,
    (terminate_server_contract.1
      (runTerm termInit [TermEvent.connect, TermEvent.connect])).2 0 (by decide),
    (terminate_server_contract.1
      (runTerm termInit [TermEvent.connect, TermEvent.connect])).2 1 (by decide),
    terminate_server_contract.2.2
      [TermEvent.connect, TermEvent.connect, TermEvent.terminate,
        TermEvent.socketClose 0, TermEvent.socketClose 1,
        TermEvent.serverClosed] (by decide)⟩


/-- C9: after a successful redirect, the port is recovered from a `Host`
header of the form `host:digits` (the nonempty digit suffix, `parseInt`-ed),
falling back to the originally bound port when the header is absent or does
not match the pattern; the state rebuilt for the 302 redirect is exactly
the recovered port, a comma, and the percent-encoded session nonce. -/
theorem host_port_recovery :
    (∀ (pre digits : List Char) (boundPort : Nat) (nonce : String),
      ':' ∉ pre → pre ≠ [] → digits ≠ [] → digits.all Char.isDigit = true →
      recoverPort (some (String.mk (pre ++ ':' :: digits))) boundPort
          = jsParseIntDigits (String.mk digits)
        ∧ rebuildStateLocal nonce
            (recoverPort (some (String.mk (pre ++ ':' :: digits))) boundPort)
          = toString (jsParseIntDigits (String.mk digits)) ++ ","
            ++ encodeURIComponent nonce)
    ∧ (∀ boundPort : Nat, recoverPort none boundPort = boundPort)
    ∧ (∀ (h : String) (boundPort : Nat), ':' ∉ h.toList →
      recoverPort (some h) boundPort = boundPort)
    ∧ (∀ (h : String) (boundPort : Nat), hostPortCapture h = none →
      recoverPort (some h) boundPort = boundPort) := by
  refine ⟨?_, fun boundPort => rfl, ?_, ?_⟩
  · intro pre digits boundPort nonce hpre hpre2 hd1 hd2
    have hlist : (String.mk (pre ++ ':' :: digits)).toList
        = pre ++ ':' :: digits := rfl
    have hcap : hostPortCapture (String.mk (pre ++ ':' :: digits))
        = some (String.mk digits) := by
      unfold hostPortCapture
      rw [hlist, splitFirst_append ':' pre digits hpre]
      dsimp only
      rw [if_pos ⟨hpre2, hd1, hd2⟩]
    have hrec : recoverPort (some (String.mk (pre ++ ':' :: digits))) boundPort
        = jsParseIntDigits (String.mk digits) := by
      unfold recoverPort
      rw [Option.getD_some, hcap]
    exact ⟨hrec, by rw [hrec]; rfl⟩
  · intro h boundPort hmem
    have hcap : hostPortCapture h = none := by
      unfold hostPortCapture
      rw [splitFirst_not_mem ':' h.toList hmem]
    unfold recoverPort
    rw [Option.getD_some, hcap]
  · intro h boundPort hcap
    unfold recoverPort
    rw [Option.getD_some, hcap]

/-- Witness for C9: host `localhost:51234` recovers port 51234 and the
rebuilt state embeds it; host `localhost` and an absent header fall back. -/
theorem host_port_recovery_witness :
    (':' ∉ ("localhost".toList) ∧ "localhost".toList ≠ []
      ∧ "51234".toList ≠ [] ∧ ("51234".toList).all Char.isDigit = true)
    ∧ recoverPort (some (String.mk ("localhost".toList ++ ':' :: "51234".toList))) 7
      = jsParseIntDigits (String.mk "51234".toList)
    ∧ rebuildStateLocal "abc="
        (recoverPort (some (String.mk ("localhost".toList ++ ':' :: "51234".toList))) 7)
      = toString (jsParseIntDigits (String.mk "51234".toList)) ++ ","
        ++ encodeURIComponent "abc="
    ∧ recoverPort none 7 = 7
    ∧ recoverPort (some "localhost") 7 = 7 :=
  ⟨⟨by decide, by decide, by decide, by decide⟩,
    (host_port_recovery.1 "localhost".toList "51234".toList 7 "abc="
      (by decide) (by decide) (by decide) (by decide)).1,
    (host_port_recovery.1 "localhost".toList "51234".toList 7 "abc="
      (by decide) (by decide) (by decide) (by decide)).2,
    host_port_recovery.2.1 7,
    host_port_recovery.2.2.1 "localhost" 7 (by decide)⟩

/-- C1 counterexample: with session nonce `abc=`, a `/callback` whose raw
`state` is `51234,abc%253D` (the nonce percent-encoded one extra time) is
rejected as a nonce mismatch by the callback comparison — it is not
accepted as a match, even though a `code` is present. -/
theorem callback_double_encoded_nonce_rejected :
    handleCallbackWire "abc=" "code=XYZ&state=51234,abc%253D"
        = Except.error "Nonce does not match."
      ∧ handleCallbackWire "abc=" "code=XYZ&state=51234,abc%3D"
        = Except.ok "XYZ" := by
  exact ⟨by decide, by decide⟩


/-- C1 (amended): the `/callback` comparison accepts the nonce exactly when
it arrives percent-encoded once on the wire — the single decode performed by
`url.parse` recovers it and the request succeeds — while the
double-encoding tolerance lives only in the no-local-server flow
(`exchangeCodeForToken`), whose state comparison accepts the session state
both verbatim and percent-encoded one extra time. -/
theorem nonce_encoding_tolerance_located :
    (∀ nonce : String,
      (∀ c ∈ nonce.toList, c.toNat < 128 ∧ c ≠ ',' ∧ c ≠ ' ') →
      handleCallbackWire nonce
          ("code=XYZ&state=51234," ++ encodeURIComponent nonce)
        = Except.ok "XYZ")
    ∧ (∀ stateStr : String, (∀ c ∈ stateStr.toList, c.toNat < 128) →
      exchangeStateCheck stateStr stateStr = true
      ∧ exchangeStateCheck stateStr (encodeURIComponent stateStr) = true) := by
  constructor
  · intro nonce hyp
    have hascii : ∀ c ∈ nonce.toList, c.toNat < 128 := fun c hc => (hyp c hc).1
    have hamp : '&' ∉ nonce.toList.flatMap encChar :=
      notMem_flatMap_encChar '&' (by decide) (by decide) (by decide) _ hascii
    have hplus : '+' ∉ nonce.toList.flatMap encChar :=
      notMem_flatMap_encChar '+' (by decide) (by decide) (by decide) _ hascii
    have h0 : ("code=XYZ&state=51234," ++ encodeURIComponent nonce).toList
        = "code=XYZ".toList
          ++ '&' :: ("state=51234,".toList ++ nonce.toList.flatMap encChar) := by
      rw [toList_append]
      rfl
    have hne2 : '&' ∉ "state=51234,".toList ++ nonce.toList.flatMap encChar := by
      intro hm
      rcases List.mem_append.mp hm with hm | hm
      · exact absurd hm (by decide)
      · exact hamp hm
    have hsplit : splitAll '&'
        ("code=XYZ&state=51234," ++ encodeURIComponent nonce).toList
        = ["code=XYZ".toList,
          "state=51234,".toList ++ nonce.toList.flatMap encChar] := by
      rw [h0, splitAll_append_cons '&' _ _ (by decide),
        splitAll_not_mem '&' _ hne2]
    have hp2ne : "state=51234,".toList ++ nonce.toList.flatMap encChar ≠ [] :=
      List.cons_ne_nil _ _
    have hval : qsDecode (String.mk
        ("51234,".toList ++ nonce.toList.flatMap encChar))
        = String.mk ("51234,".toList ++ nonce.toList) := by
      unfold qsDecode plusToSpace percentDecode
      rw [toList_mk,
        map_eq_self_of _ _ (fun c hc => by
          have hcp : c ≠ '+' := by
            intro he
            subst he
            rcases List.mem_append.mp hc with hm | hm
            · exact absurd hm (by decide)
            · exact hplus hm
          simp [hcp]),
        toList_mk,
        percentDecodeL_append _ _ (by decide),
        percentDecodeL_flatMap_encChar _ hascii]
    have hparse : parseQS ("code=XYZ&state=51234," ++ encodeURIComponent nonce)
        = [("code", "XYZ"),
          ("state", String.mk ("51234,".toList ++ nonce.toList))] := by
      unfold parseQS
      rw [hsplit]
      rw [List.filter_cons_of_pos (by decide), List.filter_cons_of_pos (by
        simpa using hp2ne), List.filter_nil]
      rw [List.map_cons, List.map_cons, List.map_nil]
      have hpart1 : parsePartQS "code=XYZ".toList = ("code", "XYZ") := by decide
      have hpart2 : parsePartQS
          ("state=51234,".toList ++ nonce.toList.flatMap encChar)
          = ("state", String.mk ("51234,".toList ++ nonce.toList)) := by
        have hform : "state=51234,".toList ++ nonce.toList.flatMap encChar
            = "state".toList
              ++ '=' :: ("51234,".toList ++ nonce.toList.flatMap encChar) := rfl
        unfold parsePartQS
        rw [hform, splitFirst_append '=' _ _ (by decide)]
        dsimp only
        rw [show qsDecode (String.mk "state".toList) = "state" from by decide]
        rw [hval]
      rw [hpart1, hpart2]
    have hsplitv : jsSplit ','
        (String.mk ("51234,".toList ++ nonce.toList))
        = ["51234", String.mk nonce.toList] := by
      unfold jsSplit
      rw [toList_mk]
      have hform : "51234,".toList ++ nonce.toList
          = "51234".toList ++ ',' :: nonce.toList := rfl
      rw [hform, splitAll_append_cons ',' _ _ (by decide),
        splitAll_not_mem ',' _ (fun hm => (hyp _ hm).2.1 rfl)]
      rfl
    have hrecv : spaceToPlus ((jsSplit ','
        (String.mk ("51234,".toList ++ nonce.toList))).getD 1 "") = nonce := by
      rw [hsplitv]
      show spaceToPlus (String.mk nonce.toList) = nonce
      unfold spaceToPlus
      rw [toList_mk, map_eq_self_of _ _
        (fun c hc => by simp [(hyp c hc).2.2]), mk_toList]
    unfold handleCallbackWire
    rw [hparse]
    simp only [callbackRun]
    rw [show getQueryProp [("code", "XYZ"),
      ("state", String.mk ("51234,".toList ++ nonce.toList))]
      "error_description" = "" from rfl]
    rw [show getQueryProp [("code", "XYZ"),
      ("state", String.mk ("51234,".toList ++ nonce.toList))]
      "error" = "" from rfl]
    rw [show getQueryProp [("code", "XYZ"),
      ("state", String.mk ("51234,".toList ++ nonce.toList))]
      "state" = String.mk ("51234,".toList ++ nonce.toList) from rfl]
    rw [show getQueryProp [("code", "XYZ"),
      ("state", String.mk ("51234,".toList ++ nonce.toList))]
      "code" = "XYZ" from rfl]
    rw [show jsOr "" "" = "" from rfl]
    rw [hrecv]
    have herr2 : (if ("" : String) = "" then
        (if nonce ≠ nonce then "Nonce does not match." else "") else "") = "" := by
      rw [if_pos rfl, if_neg (fun hne => hne rfl)]
    rw [herr2]
    rw [if_pos ⟨rfl, by decide⟩]
  · intro stateStr hascii
    have hd : percentDecode (encodeURIComponent stateStr) = stateStr := by
      unfold percentDecode encodeURIComponent
      rw [toList_mk, percentDecodeL_flatMap_encChar _ hascii, mk_toList]
    constructor
    · simp [exchangeStateCheck]
    · simp [exchangeStateCheck, hd]

/-- Witness for C1 (amended), at the spec scenario nonce `abc=` and state
`51234,abc%3D`. -/
theorem nonce_encoding_tolerance_located_witness :
    (∀ c ∈ ("abc=" : String).toList, c.toNat < 128 ∧ c ≠ ',' ∧ c ≠ ' ')
    ∧ handleCallbackWire "abc="
        ("code=XYZ&state=51234," ++ encodeURIComponent "abc=")
      = Except.ok "XYZ"
    ∧ exchangeStateCheck "51234,abc%3D" "51234,abc%3D" = true
    ∧ exchangeStateCheck "51234,abc%3D"
        (encodeURIComponent "51234,abc%3D") = true :=
  ⟨by decide, nonce_encoding_tolerance_located.1 "abc=" (by decide),
    (nonce_encoding_tolerance_located.2 "51234,abc%3D" (by decide)).1,
    (nonce_encoding_tolerance_located.2 "51234,abc%3D" (by decide)).2⟩


theorem splitAll_append_append_cons (sep : Char) (l1 l2 l3 : List Char)
    (h1 : sep ∉ l1) (h2 : sep ∉ l2) :
    splitAll sep (l1 ++ (l2 ++ sep :: l3)) = (l1 ++ l2) :: splitAll sep l3 := by
  rw [← List.append_assoc]
  exact splitAll_append_cons sep (l1 ++ l2) l3 (fun hm => by
    rcases List.mem_append.mp hm with hm | hm
    · exact h1 hm
    · exact h2 hm)

/-- C2 counterexample: at concrete inputs, the `redirect_uri` value of the
authorization query is the raw redirect URL in the no-local-server variant
and the percent-encoded redirect URL in the local-server variant — the
reverse of the claimed orientation (raw and encoded forms differ for both
redirect URLs). -/
theorem redirect_uri_encoding_claim_false :
    rawParam (noLocalServerAuthQuery "id" "7,n" "res") "redirect_uri"
      = some redirectUrlAAD
    ∧ redirectUrlAAD ≠ encodeURIComponent redirectUrlAAD
    ∧ rawParam (localServerAuthQuery "id" redirectUrlADFS "7,n" "res")
      "redirect_uri" = some (encodeURIComponent redirectUrlADFS)
    ∧ encodeURIComponent redirectUrlADFS ≠ redirectUrlADFS := by
  exact ⟨by decide, by decide, by decide, by decide⟩

/-- C2 (amended): the asymmetry is the reverse of the claimed one — the
`redirect_uri` query value is left raw in the no-local-server variant and
percent-encoded in the local-server variant, for every client id and
redirect URL (ASCII, as the real GUIDs and URLs are). -/
theorem redirect_uri_encoding_asymmetry :
    (∀ clientId state resource : String,
      (∀ c ∈ clientId.toList, c.toNat < 128) →
      rawParam (noLocalServerAuthQuery clientId state resource) "redirect_uri"
        = some redirectUrlAAD)
    ∧ (∀ clientId redirectUrl state resource : String,
      (∀ c ∈ clientId.toList, c.toNat < 128) →
      (∀ c ∈ redirectUrl.toList, c.toNat < 128) →
      rawParam (localServerAuthQuery clientId redirectUrl state resource)
        "redirect_uri" = some (encodeURIComponent redirectUrl))
    ∧ encodeURIComponent redirectUrlAAD ≠ redirectUrlAAD
    ∧ encodeURIComponent redirectUrlADFS ≠ redirectUrlADFS := by
  refine ⟨?_, ?_, by decide, by decide⟩
  · intro clientId state resource hci
    have hampC : '&' ∉ (encodeURIComponent clientId).toList :=
      notMem_flatMap_encChar '&' (by decide) (by decide) (by decide) _ hci
    unfold rawParam noLocalServerAuthQuery
    rw [toList_append, toList_append, toList_append, toList_append,
      toList_append, toList_append, toList_append, toList_append]
    simp only [List.append_assoc]
    rw [show ("response_type=code&client_id=" : String).toList
      = "response_type=code".toList ++ '&' :: "client_id=".toList from rfl]
    rw [show ("&redirect_uri=" : String).toList
      = '&' :: "redirect_uri=".toList from rfl]
    rw [show ("&state=" : String).toList = '&' :: "state=".toList from rfl]
    simp only [List.append_assoc, List.cons_append]
    rw [splitAll_append_cons '&' _ _ (by decide)]
    rw [splitAll_append_append_cons '&' _ _ _ (by decide) hampC]
    rw [splitAll_append_append_cons '&' _ _ _ (by decide) (by decide)]
    have g1 : rawParamPick "redirect_uri" "response_type=code".toList
        = none := by decide
    have g2 : rawParamPick "redirect_uri"
        ("client_id=".toList ++ (encodeURIComponent clientId).toList)
        = none := by
      unfold rawParamPick
      rw [show "client_id=".toList ++ (encodeURIComponent clientId).toList
        = "client_id".toList ++ '=' :: (encodeURIComponent clientId).toList
        from rfl]
      rw [splitFirst_append '=' _ _ (by decide)]
      dsimp only
      rw [if_neg (by decide)]
    have g3 : rawParamPick "redirect_uri"
        ("redirect_uri=".toList ++ redirectUrlAAD.toList)
        = some redirectUrlAAD := by
      unfold rawParamPick
      rw [show "redirect_uri=".toList ++ redirectUrlAAD.toList
        = "redirect_uri".toList ++ '=' :: redirectUrlAAD.toList from rfl]
      rw [splitFirst_append '=' _ _ (by decide)]
      dsimp only
      rw [if_pos (by decide)]
      rfl
    rw [List.filterMap_cons_none g1, List.filterMap_cons_none g2,
      List.filterMap_cons_some g3, List.head?_cons]
  · intro clientId redirectUrl state resource hci hru
    have hampC : '&' ∉ (encodeURIComponent clientId).toList :=
      notMem_flatMap_encChar '&' (by decide) (by decide) (by decide) _ hci
    have hampR : '&' ∉ (encodeURIComponent redirectUrl).toList :=
      notMem_flatMap_encChar '&' (by decide) (by decide) (by decide) _ hru
    unfold rawParam localServerAuthQuery
    rw [toList_append, toList_append, toList_append, toList_append,
      toList_append, toList_append, toList_append, toList_append]
    simp only [List.append_assoc]
    rw [show ("response_type=code&client_id=" : String).toList
      = "response_type=code".toList ++ '&' :: "client_id=".toList from rfl]
    rw [show ("&redirect_uri=" : String).toList
      = '&' :: "redirect_uri=".toList from rfl]
    rw [show ("&state=" : String).toList = '&' :: "state=".toList from rfl]
    simp only [List.append_assoc, List.cons_append]
    rw [splitAll_append_cons '&' _ _ (by decide)]
    rw [splitAll_append_append_cons '&' _ _ _ (by decide) hampC]
    rw [splitAll_append_append_cons '&' _ _ _ (by decide) hampR]
    have g1 : rawParamPick "redirect_uri" "response_type=code".toList
        = none := by decide
    have g2 : rawParamPick "redirect_uri"
        ("client_id=".toList ++ (encodeURIComponent clientId).toList)
        = none := by
      unfold rawParamPick
      rw [show "client_id=".toList ++ (encodeURIComponent clientId).toList
        = "client_id".toList ++ '=' :: (encodeURIComponent clientId).toList
        from rfl]
      rw [splitFirst_append '=' _ _ (by decide)]
      dsimp only
      rw [if_neg (by decide)]
    have g3 : rawParamPick "redirect_uri"
        ("redirect_uri=".toList ++ (encodeURIComponent redirectUrl).toList)
        = some (encodeURIComponent redirectUrl) := by
      unfold rawParamPick
      rw [show "redirect_uri=".toList ++ (encodeURIComponent redirectUrl).toList
        = "redirect_uri".toList ++ '=' :: (encodeURIComponent redirectUrl).toList
        from rfl]
      rw [splitFirst_append '=' _ _ (by decide)]
      dsimp only
      rw [if_pos (by decide)]
      rfl
    rw [List.filterMap_cons_none g1, List.filterMap_cons_none g2,
      List.filterMap_cons_some g3, List.head?_cons]

/-- Witness for C2 (amended), at the real client GUID and redirect URLs. -/
theorem redirect_uri_encoding_asymmetry_witness :
    rawParam (noLocalServerAuthQuery "aebc6443-996d-45c2-90f0-388ff96faa56"
      "443,n," "https://management.core.windows.net/") "redirect_uri"
      = some redirectUrlAAD
    ∧ rawParam (localServerAuthQuery "aebc6443-996d-45c2-90f0-388ff96faa56"
      redirectUrlADFS "51234,n" "https://management.core.windows.net/")
      "redirect_uri" = some (encodeURIComponent redirectUrlADFS)
    ∧ encodeURIComponent redirectUrlAAD ≠ redirectUrlAAD :=
  ⟨redirect_uri_encoding_asymmetry.1 "aebc6443-996d-45c2-90f0-388ff96faa56"
    "443,n," "https://management.core.windows.net/" (by decide),
    redirect_uri_encoding_asymmetry.2.1 "aebc6443-996d-45c2-90f0-388ff96faa56"
      redirectUrlADFS "51234,n" "https://management.core.windows.net/"
      (by decide) (by decide),
    redirect_uri_encoding_asymmetry.2.2.1⟩

end Login
